import Mathlib

/-!
Shallow embedding of the fanfinity match-event analytics pipeline
(domain codec, HTTP handlers, ClickHouse repository adapter, Kafka batch
consumer) together with theorems settling the specification claims.

Conventions of the embedding:
* Go JSON values are modelled by the inductive `Json`; a Go
  `map[string]interface{}` is modelled as an association list of fields
  (`List (String × Json)`), standing for the unordered map.
* `json.Marshal` / `json.Unmarshal` of the wire structs are modelled at the
  level of the `Json` AST (the byte-string layer of the Go standard library
  is external to the repository).
* The external `uuid` and `time` libraries are modelled by parameters:
  a UUID type `U` with `uuidToString : U → String` / `uuidParse`, and a
  time-instant type `T` with `formatNano : T → String` (RFC3339-nano
  formatting) / `parseNano` / `parseRFC` parsers.  Library round-trip laws
  (`uuidParse (uuidToString u) = some u`, `parseNano (formatNano t) = some t`)
  appear as hypotheses where a theorem needs them.
* Go's nil map is `none`, a non-nil map with entries `l` is `some l`.
-/

namespace Fanfinity

/-- Model of a Go JSON value (`interface{}` decoded from JSON). Objects are
association lists standing for unordered `map[string]interface{}`. -/
inductive Json where
  | null : Json
  | bool : Bool → Json
  | num : Int → Json
  | str : String → Json
  | arr : List Json → Json
  | obj : List (String × Json) → Json

/-- Last-occurrence field lookup in a JSON object, mirroring Go's
`encoding/json` decoder where a later duplicate key overwrites an earlier
one. -/
def jlookup : List (String × Json) → String → Option Json
  | [], _ => none
  | (k, v) :: fs, key =>
    match jlookup fs key with
    | some r => some r
    | none => if k = key then some v else none

/-- The eleven valid event types (`ValidEventTypes` in `event.go`). -/
def validEventTypes : List String :=
  ["pass", "shot", "goal", "foul", "yellow_card", "red_card",
   "substitution", "offside", "corner", "free_kick", "interception"]

/-- Model of `domain.Event`: a validated match event.  `U` models `uuid.UUID`, `T`
models `time.Time`.  `metadata = none` is Go's nil map. -/
structure Event (U T : Type) where
  eventID : U
  matchID : String
  eventType : String
  timestamp : T
  teamID : Int
  playerID : String
  metadata : Option (List (String × Json))

/-- Model of `domain.EventRequest`: the incoming JSON request body shape. -/
structure EventRequest where
  eventId : String
  matchId : String
  eventType : String
  timestamp : String
  teamId : Int
  playerId : String
  metadata : Option (List (String × Json))

/-- Model of `domain.ValidationError` (field-tagged validation failure). -/
structure ValidationError where
  field : String
  message : String
  deriving DecidableEq

/-- Model of `EventRequest.ToEvent` from `event.go`: validates in source order
(UUID parse, matchId non-empty, eventType in enum, RFC3339 timestamp parse,
teamId in {1,2}) and converts to a domain `Event`.  `uuidParse` models
`uuid.Parse`, `parseRFC` models `time.Parse(time.RFC3339, ·)`. -/
def EventRequest.toEvent {U T : Type} (uuidParse : String → Option U)
    (parseRFC : String → Option T) (r : EventRequest) :
    Except ValidationError (Event U T) :=
  match uuidParse r.eventId with
  | none => .error ⟨"eventId", "must be a valid UUID"⟩
  | some u =>
    if r.matchId = "" then .error ⟨"matchId", "is required"⟩
    else if ¬ (r.eventType ∈ validEventTypes) then
      .error ⟨"eventType", "must be a valid event type"⟩
    else
      match parseRFC r.timestamp with
      | none => .error ⟨"timestamp", "must be a valid RFC3339 timestamp"⟩
      | some ts =>
        if r.teamId ≠ 1 ∧ r.teamId ≠ 2 then
          .error ⟨"teamId", "must be 1 or 2"⟩
        else
          .ok ⟨u, r.matchId, r.eventType, ts, r.teamId, r.playerId, r.metadata⟩

/-- Model of `domain.KafkaMessage`: the serialized wire shape of an `Event`. -/
structure KafkaMessage where
  eventId : String
  matchId : String
  eventType : String
  timestamp : String
  teamId : Int
  playerId : String
  metadata : Option (List (String × Json))

/-- Model of `json.Marshal` of a `KafkaMessage` at the `Json`-AST level.  The
`metadata` field carries the tag `omitempty`, so both a nil map and an
empty map are omitted from the output object. -/
def KafkaMessage.marshal (m : KafkaMessage) : Json :=
  Json.obj
    ([("eventId", Json.str m.eventId),
      ("matchId", Json.str m.matchId),
      ("eventType", Json.str m.eventType),
      ("timestamp", Json.str m.timestamp),
      ("teamId", Json.num m.teamId),
      ("playerId", Json.str m.playerId)] ++
     (match m.metadata with
      | none => []
      | some [] => []
      | some md => [("metadata", Json.obj md)]))

/-- Decode one string-typed struct field, mirroring `encoding/json`:
a missing key or JSON null leaves the zero value `""`; a non-string value
is a decode error. -/
def getStrField (fields : List (String × Json)) (key : String) : Option String :=
  match jlookup fields key with
  | none => some ""
  | some (Json.str s) => some s
  | some Json.null => some ""
  | some _ => none

/-- Decode one integer-typed struct field (zero value 0 on absence/null). -/
def getNumField (fields : List (String × Json)) (key : String) : Option Int :=
  match jlookup fields key with
  | none => some 0
  | some (Json.num n) => some n
  | some Json.null => some 0
  | some _ => none

/-- Decode the `metadata` map field (absence or null leaves the nil map). -/
def getMetaField (fields : List (String × Json)) :
    Option (Option (List (String × Json))) :=
  match jlookup fields "metadata" with
  | none => some none
  | some Json.null => some none
  | some (Json.obj md) => some (some md)
  | some _ => none

/-- Model of `json.Unmarshal` into a `KafkaMessage` at the `Json`-AST level. -/
def KafkaMessage.unmarshal : Json → Option KafkaMessage
  | Json.obj fields => do
    let eid ← getStrField fields "eventId"
    let mid ← getStrField fields "matchId"
    let et ← getStrField fields "eventType"
    let ts ← getStrField fields "timestamp"
    let tid ← getNumField fields "teamId"
    let pid ← getStrField fields "playerId"
    let md ← getMetaField fields
    pure ⟨eid, mid, et, ts, tid, pid, md⟩
  | _ => none

/-- Model of `Event.ToKafkaMessage` from `event.go`: build the wire struct (UUID via
`String()`, timestamp via `Format(time.RFC3339Nano)`) and `json.Marshal` it. -/
def Event.toKafkaMessage {U T : Type} (uuidToString : U → String)
    (formatNano : T → String) (e : Event U T) : Json :=
  KafkaMessage.marshal
    ⟨uuidToString e.eventID, e.matchID, e.eventType,
     formatNano e.timestamp, e.teamID, e.playerID, e.metadata⟩

/-- Model of `EventFromKafkaMessage` from `event.go`: unmarshal the wire struct, parse
the UUID, parse the timestamp as RFC3339-nano falling back to RFC3339. -/
def eventFromKafkaMessage {U T : Type} (uuidParse : String → Option U)
    (parseNano parseRFC : String → Option T) (data : Json) :
    Option (Event U T) := do
  let msg ← KafkaMessage.unmarshal data
  let u ← uuidParse msg.eventId
  let t ←
    match parseNano msg.timestamp with
    | some t => some t
    | none => parseRFC msg.timestamp
  pure ⟨u, msg.matchId, msg.eventType, t, msg.teamId, msg.playerId, msg.metadata⟩

/-- Characters of a JSON string literal (the model does not escape, which is
faithful for the plain keys exercised here). -/
def encodeStringChars (s : String) : List Char :=
  '"' :: s.data ++ ['"']

mutual

/-- Characters of the `encoding/json` output for a JSON value. -/
def Json.encodeChars : Json → List Char
  | Json.null => "null".data
  | Json.bool true => "true".data
  | Json.bool false => "false".data
  | Json.num n => (toString n).data
  | Json.str s => encodeStringChars s
  | Json.arr xs => '[' :: Json.encodeCharsList xs ++ [']']
  | Json.obj fs => '\x7b' :: Json.encodeCharsFields fs ++ ['\x7d']

/-- Comma-separated encodings of the elements of a JSON array. -/
def Json.encodeCharsList : List Json → List Char
  | [] => []
  | [x] => Json.encodeChars x
  | x :: y :: xs => Json.encodeChars x ++ ',' :: Json.encodeCharsList (y :: xs)

/-- Comma-separated `"key":value` encodings of the fields of a JSON object. -/
def Json.encodeCharsFields : List (String × Json) → List Char
  | [] => []
  | [(k, v)] => encodeStringChars k ++ ':' :: Json.encodeChars v
  | (k, v) :: f :: fs =>
    encodeStringChars k ++ ':' :: Json.encodeChars v ++
      ',' :: Json.encodeCharsFields (f :: fs)

end

/-- Model of `encoding/json` output of a JSON value, as a string. -/
def Json.encode (j : Json) : String :=
  String.mk j.encodeChars

/-- Model of `Event.MetadataJSON` from `event.go`: serialize the metadata to a JSON
string, returning `"\x7b\x7d"` (i.e. `{}`) when the map is nil.  (The
`json.Marshal` failure fallback of the source is unreachable here: every
`Json` value in the model is serializable.)  This is the string the
ClickHouse store adapter (`InsertBatch` in `clickhouse.go`) writes to the
`metadata` column. -/
def Event.metadataJSON {U T : Type} (e : Event U T) : String :=
  match e.metadata with
  | none => "\x7b\x7d"
  | some md => Json.encode (Json.obj md)

/-- Model of `api.ErrorResponse`: `field` is tagged `omitempty`; `none` models the
omitted attribute. -/
structure ErrorResponse where
  error : String
  message : String
  field : Option String
  deriving DecidableEq

/-- Outcome of `Handler.IngestEvent` (`handler.go`): an error response or a
202 acceptance carrying the event id. -/
inductive IngestResponse where
  | errorResp (status : Nat) (body : ErrorResponse) : IngestResponse
  | accepted (eventId : String) : IngestResponse
  deriving DecidableEq

/-- Model of `respondError` from `response.go`: the `field` attribute is set to the
detail string when that string is non-empty, and omitted otherwise. -/
def respondError (status : Nat) (message detail : String) : IngestResponse :=
  IngestResponse.errorResp status
    ⟨statusText status, message, if detail = "" then none else some detail⟩
where
  /-- Model of `http.StatusText` for the statuses the handlers use. -/
  statusText : Nat → String
    | 400 => "Bad Request"
    | 404 => "Not Found"
    | 500 => "Internal Server Error"
    | 503 => "Service Unavailable"
    | _ => ""

/-- Model of `respondErrorWithField` from `response.go`. -/
def respondErrorWithField (status : Nat) (message field : String) :
    IngestResponse :=
  IngestResponse.errorResp status ⟨respondError.statusText status, message, some field⟩

/-- Model of `Handler.IngestEvent` from `handler.go`.  The decoded body is
`none` when `json.Decode` fails, in which case `decodeErrDetail` is the
decoder's error text (`err.Error()`, e.g. `"EOF"` for an empty body).
`produceOk` is the outcome of the synchronous Kafka publish. -/
def ingestEvent {U T : Type} (uuidParse : String → Option U)
    (parseRFC : String → Option T) (uuidToString : U → String)
    (body : Option EventRequest) (decodeErrDetail : String)
    (produceOk : Bool) : IngestResponse :=
  match body with
  | none => respondError 400 "invalid JSON body" decodeErrDetail
  | some req =>
    match req.toEvent uuidParse parseRFC with
    | .error ve => respondErrorWithField 400 ve.message ve.field
    | .ok e =>
      if produceOk then IngestResponse.accepted (uuidToString e.eventID)
      else respondError 503 "failed to queue event" ""

/-- Formalization of the spec's validation order, written from the spec's
words ("Validation order (first failure short-circuits): JSON parse;
`event_id` UUID parse; `match_id` non-empty; `event_type` in enum;
`timestamp` RFC3339 parse; `team_id` ∈ {1,2}"): the name of the first
failing check of a decoded body, `none` if all checks pass. -/
def specFirstFailingField {U T : Type} (uuidParse : String → Option U)
    (parseRFC : String → Option T) (r : EventRequest) : Option String :=
  if (uuidParse r.eventId).isNone then some "eventId"
  else if r.matchId = "" then some "matchId"
  else if ¬ (r.eventType ∈ validEventTypes) then some "eventType"
  else if (parseRFC r.timestamp).isNone then some "timestamp"
  else if r.teamId ≠ 1 ∧ r.teamId ≠ 2 then some "teamId"
  else none

/-- Model of `domain.PeakEngagement` with `time.Time` minutes modelled as `Int`. -/
structure PeakEngagement where
  minute : Int
  eventCount : Int
  deriving DecidableEq

/-- Model of `domain.EventsPerMinute`: one per-minute, per-event-type aggregate row. -/
structure EventsPerMinute where
  minute : Int
  eventType : String
  eventCount : Int
  deriving DecidableEq

/-- Model of `domain.MatchMetrics` (time fields as `Int`, absent pointers as
`none`). -/
structure MatchMetrics where
  matchId : String
  totalEvents : Int
  eventsByType : List (String × Int)
  goals : Int
  yellowCards : Int
  redCards : Int
  firstEventAt : Option Int
  lastEventAt : Option Int
  peakMinute : Option PeakEngagement
  deriving DecidableEq

/-- Outcome of `Handler.GetMatchMetrics`: an error status or a 200 response
with a `MatchMetrics` body. -/
inductive MetricsResponse where
  | errorResp (status : Nat) : MetricsResponse
  | ok (body : MatchMetrics) : MetricsResponse
  deriving DecidableEq

/-- The handler's `minuteTotals[epm.Minute] += epm.EventCount` on an
association-list representation of the Go map: update the entry in place
when present, append a new entry otherwise. -/
def bumpTotal : List (Int × Int) → Int → Int → List (Int × Int)
  | [], m, c => [(m, c)]
  | (k, v) :: rest, m, c =>
    if k = m then (k, v + c) :: rest else (k, v) :: bumpTotal rest m c

/-- The `minuteTotals` map built by `Handler.GetMatchMetrics` by iterating
the per-minute aggregate list in slice order. -/
def minuteTotals (epms : List EventsPerMinute) : List (Int × Int) :=
  epms.foldl (fun acc e => bumpTotal acc e.minute e.eventCount) []

/-- The handler's peak-search loop body over the (nondeterministically
ordered) map entries: keep the entry whose count strictly exceeds the best
so far, starting from the zero minute and count 0. -/
def peakFold (entries : List (Int × Int)) : Int × Int :=
  entries.foldl (fun acc mc => if mc.2 > acc.2 then mc else acc) (0, 0)

/-- The peak the handler attaches: the result of the peak-search loop over
`entries` (an iteration order of the `minuteTotals` map), kept only when
its count is positive. -/
def computePeak (entries : List (Int × Int)) : Option PeakEngagement :=
  if (peakFold entries).2 > 0
  then some ⟨(peakFold entries).1, (peakFold entries).2⟩ else none

/-- Model of `Handler.GetMatchMetrics` from `handler.go`.  `summary` is the result of
`repository.GetMatchMetrics` (`.error` = store error, `.ok none` = nil
metrics), `perMinute` the result of `repository.GetEventsPerMinute`, and
`order` the iteration order of the handler's `minuteTotals` map (Go map
iteration order is not specified, so it is an explicit parameter; theorems
constrain it to a permutation of the map's entries). -/
def getMatchMetrics (matchId : String)
    (summary : Except Unit (Option MatchMetrics))
    (perMinute : Except Unit (List EventsPerMinute))
    (order : List (Int × Int)) : MetricsResponse :=
  if matchId = "" then MetricsResponse.errorResp 400
  else
    match summary with
    | .error _ => MetricsResponse.errorResp 500
    | .ok none => MetricsResponse.errorResp 404
    | .ok (some metrics) =>
      if metrics.totalEvents = 0 then MetricsResponse.errorResp 404
      else
        match perMinute with
        | .error _ => MetricsResponse.ok metrics
        | .ok epms =>
          let peak := if 0 < epms.length then computePeak order else none
          MetricsResponse.ok { metrics with peakMinute := peak }

/-- A stored row of `fanfinity.match_events` restricted to one match:
`minute` is `toStartOfMinute(timestamp)`. -/
structure StoreRow where
  eventType : String
  timestamp : Int
  minute : Int
  deriving DecidableEq

/-- Model of `ClickHouseRepository.GetMatchMetrics` from `clickhouse.go` over an
abstract store state.  `rows` are the stored events of the queried match;
`summaryErr`, `byTypeErr` and `rowsErr` inject failures of the summary
query scan, the by-type query and the by-type row iteration; `peakScan` is
the result of the repository's own peak query (`none` = scan error,
otherwise the minute of maximal count as chosen by the store).  `byType`
is the by-type grouping as ordered by the store.  Returns `.ok none`
exactly on a successful summary scan reporting zero events. -/
def repoGetMatchMetrics (matchId : String) (rows : List StoreRow)
    (byType : List (String × Int)) (summaryErr byTypeErr rowsErr : Bool)
    (peakScan : Option (Int × Int)) : Except Unit (Option MatchMetrics) :=
  if matchId = "" then .error ()
  else if summaryErr then .error ()
  else
    let total : Int := rows.length
    if total = 0 then .ok none
    else if byTypeErr then .error ()
    else if rowsErr then .error ()
    else
      let firstAt : Int := ((rows.map StoreRow.timestamp).min?).getD 0
      let lastAt : Int := ((rows.map StoreRow.timestamp).max?).getD 0
      .ok (some
        { matchId := matchId
          totalEvents := total
          eventsByType := byType
          goals := ((rows.filter (fun r => r.eventType = "goal")).length : Int)
          yellowCards := ((rows.filter (fun r => r.eventType = "yellow_card")).length : Int)
          redCards := ((rows.filter (fun r => r.eventType = "red_card")).length : Int)
          firstEventAt := if firstAt ≠ 0 then some firstAt else none
          lastEventAt := if lastAt ≠ 0 then some lastAt else none
          peakMinute :=
            match peakScan with
            | some (m, c) => if 0 < c then some ⟨m, c⟩ else none
            | none => none })

/-- Model of a `kafka.Header` (byte values as naturals below 256). -/
structure KHeader where
  key : String
  value : List Nat
  deriving DecidableEq

/-- Bytes of a UTF-8 string header value (codepoint-level injection suffices
for the model; no header value is ever read back numerically except
`retry_count`, which is written as a raw byte). -/
def strBytes (s : String) : List Nat :=
  s.data.map Char.toNat

/-- Model of a `kafka.Message`: key, JSON value (AST level), headers, and the
offset coordinates used for commits. -/
structure KMessage where
  key : String
  value : Json
  headers : List KHeader
  partition : Int
  offset : Int

/-- Extraction of the `retry_count` header in `BatchConsumer.sendToRetry`:
scan all headers, a later `retry_count` header with a non-empty value
overwrites an earlier one, absence yields 0. -/
def headerRetryCount (headers : List KHeader) : Nat :=
  headers.foldl
    (fun rc h =>
      if h.key = "retry_count" then
        match h.value with
        | [] => rc
        | v :: _ => v
      else rc)
    0

/-- Retry count read for the `i`-th event of the failed batch: the code
guards `i < len(originalMessages)` and otherwise leaves the count 0. -/
def headerRetryCountAt (msgs : List KMessage) (i : Nat) : Nat :=
  match msgs[i]? with
  | some m => headerRetryCount m.headers
  | none => 0

/-- Observable effects of the consumer's failure-escalation code: messages
that reached the retry topic, messages that reached the dead topic,
primary-topic messages whose offsets were committed, and events that were
dropped (logged and lost). -/
structure SendEffects where
  retryWritten : List KMessage
  deadWritten : List KMessage
  committed : List KMessage
  lostEvents : List String

/-- Effects of code that did nothing. -/
def SendEffects.empty : SendEffects := ⟨[], [], [], []⟩

/-- Sequential composition of effects. -/
def SendEffects.append (a b : SendEffects) : SendEffects :=
  ⟨a.retryWritten ++ b.retryWritten, a.deadWritten ++ b.deadWritten,
   a.committed ++ b.committed, a.lostEvents ++ b.lostEvents⟩

/-- Environment of one escalation run: which writers are configured, whether
their writes succeed, and the `time.Now()` RFC3339-nano string. -/
structure WriterEnv where
  retryWriterPresent : Bool
  deadWriterPresent : Bool
  retryWriteOk : Bool
  deadWriteOk : Bool
  now : String

/-- Fields of the dead-letter envelope `failureInfo` built by
`BatchConsumer.sendSingleToDead`: the serialized event plus failure
metadata. -/
def deadEnvelopeFields {U T : Type} (uuidToString : U → String)
    (formatNano : T → String) (now : String) (e : Event U T) :
    List (String × Json) :=
  [("event", e.toKafkaMessage uuidToString formatNano),
   ("failed_at", Json.str now),
   ("reason", Json.str "max_retries_exceeded_or_permanent_failure"),
   ("event_id", Json.str (uuidToString e.eventID)),
   ("match_id", Json.str e.matchID),
   ("event_type", Json.str e.eventType)]

/-- Model of the dead-letter envelope, marshalled as a JSON object. -/
def deadEnvelope {U T : Type} (uuidToString : U → String)
    (formatNano : T → String) (now : String) (e : Event U T) : Json :=
  Json.obj (deadEnvelopeFields uuidToString formatNano now e)

/-- Model of the `kafka.Message` written to the dead topic for one event. -/
def deadMessage {U T : Type} (uuidToString : U → String)
    (formatNano : T → String) (now : String) (e : Event U T) : KMessage :=
  { key := e.matchID
    value := deadEnvelope uuidToString formatNano now e
    headers :=
      [⟨"event_type", strBytes e.eventType⟩,
       ⟨"event_id", strBytes (uuidToString e.eventID)⟩,
       ⟨"failed_at", strBytes now⟩]
    partition := 0
    offset := 0 }

/-- Model of `BatchConsumer.sendSingleToDead`: if no dead writer is
configured the event is lost; otherwise the envelope is written to the
dead topic, and a failed write loses the event.  No offsets are committed
here. -/
def sendSingleToDead {U T : Type} (env : WriterEnv) (uuidToString : U → String)
    (formatNano : T → String) (e : Event U T) : SendEffects :=
  if ¬ env.deadWriterPresent then
    { SendEffects.empty with lostEvents := [uuidToString e.eventID] }
  else if env.deadWriteOk then
    { SendEffects.empty with
        deadWritten := [deadMessage uuidToString formatNano env.now e] }
  else
    { SendEffects.empty with lostEvents := [uuidToString e.eventID] }

/-- Model of `BatchConsumer.sendToDead`: dead-letter every event in order. -/
def sendToDead {U T : Type} (env : WriterEnv) (uuidToString : U → String)
    (formatNano : T → String) (events : List (Event U T)) : SendEffects :=
  events.foldr
    (fun e acc => (sendSingleToDead env uuidToString formatNano e).append acc)
    SendEffects.empty

/-- Model of the retry message built by `BatchConsumer.sendToRetry` for an
event whose bumped retry count is `rc`: key and value are preserved from
the event, the `retry_count` header carries `byte(rc)` and
`original_timestamp` the event's RFC3339-nano timestamp. -/
def retryMessage {U T : Type} (uuidToString : U → String)
    (formatNano : T → String) (e : Event U T) (rc : Nat) : KMessage :=
  { key := e.matchID
    value := e.toKafkaMessage uuidToString formatNano
    headers :=
      [⟨"event_type", strBytes e.eventType⟩,
       ⟨"event_id", strBytes (uuidToString e.eventID)⟩,
       ⟨"retry_count", [rc % 256]⟩,
       ⟨"original_timestamp", strBytes (formatNano e.timestamp)⟩]
    partition := 0
    offset := 0 }

/-- Model of the per-event loop of `BatchConsumer.sendToRetry`, indexed from
`i`: each event's retry count is read from the parallel original message
(absent ⇒ 0) and incremented; counts above `maxRetries` go to the dead
letter path immediately, the rest accumulate as retry messages. -/
def retryLoop {U T : Type} (env : WriterEnv) (uuidToString : U → String)
    (formatNano : T → String) (maxRetries : Nat) (msgs : List KMessage) :
    Nat → List (Event U T) → List KMessage × SendEffects
  | _, [] => ([], SendEffects.empty)
  | i, e :: rest =>
    let rc := headerRetryCountAt msgs i + 1
    let (rms, eff) := retryLoop env uuidToString formatNano maxRetries msgs (i + 1) rest
    if maxRetries < rc then
      (rms, (sendSingleToDead env uuidToString formatNano e).append eff)
    else
      (retryMessage uuidToString formatNano e rc :: rms, eff)

/-- Model of `BatchConsumer.sendToRetry`: with no retry writer everything is
dead-lettered; otherwise the loop splits the batch, an empty retry set
returns early, a failed retry write falls through to dead-lettering ALL
events of the batch, and a successful retry write commits ALL original
messages of the batch. -/
def sendToRetry {U T : Type} (env : WriterEnv) (uuidToString : U → String)
    (formatNano : T → String) (maxRetries : Nat) (events : List (Event U T))
    (originalMessages : List KMessage) : SendEffects :=
  if ¬ env.retryWriterPresent then
    sendToDead env uuidToString formatNano events
  else
    let (retryMessages, eff) :=
      retryLoop env uuidToString formatNano maxRetries originalMessages 0 events
    if retryMessages.isEmpty then eff
    else if env.retryWriteOk then
      eff.append
        { SendEffects.empty with
            retryWritten := retryMessages
            committed := originalMessages }
    else
      eff.append (sendToDead env uuidToString formatNano events)

/-- Model of `BatchConsumer.flushWithContext` on a snapshotted batch:
an empty batch returns, a successful bulk insert commits the batch's
offsets (a commit failure is logged but changes nothing observable), a
failed insert escalates through `sendToRetry`. -/
def flushWithContext {U T : Type} (env : WriterEnv)
    (uuidToString : U → String) (formatNano : T → String) (maxRetries : Nat)
    (insertOk : Bool) (events : List (Event U T)) (messages : List KMessage) :
    SendEffects :=
  if events.isEmpty then SendEffects.empty
  else if insertOk then { SendEffects.empty with committed := messages }
  else sendToRetry env uuidToString formatNano maxRetries events messages

/-- State of the consumer's fetch loop that the claims observe: the decoded
batch, the parallel source messages, the committed offsets and the
`parse_error` counter. -/
structure ConsumerState (U T : Type) where
  batch : List (Event U T)
  messages : List KMessage
  committed : List KMessage
  parseErrors : Nat

/-- Initial consumer state. -/
def ConsumerState.init (U T : Type) : ConsumerState U T := ⟨[], [], [], 0⟩

/-- Model of the per-record body of `BatchConsumer.Start`: a record whose
value fails to decode as an Event bumps the `parse_error` counter, commits
that record's offset and is not added to the batch; a decoding record is
appended to both parallel buffers. -/
def processMessage {U T : Type} (uuidParse : String → Option U)
    (parseNano parseRFC : String → Option T) (s : ConsumerState U T)
    (msg : KMessage) : ConsumerState U T :=
  match eventFromKafkaMessage uuidParse parseNano parseRFC msg.value with
  | none =>
    { s with
        parseErrors := s.parseErrors + 1
        committed := s.committed ++ [msg] }
  | some e =>
    { s with
        batch := s.batch ++ [e]
        messages := s.messages ++ [msg] }

/-- Model of one poll cycle of `BatchConsumer.Start` over a sequence of
fetched records. -/
def processMessages {U T : Type} (uuidParse : String → Option U)
    (parseNano parseRFC : String → Option T) (s : ConsumerState U T)
    (msgs : List KMessage) : ConsumerState U T :=
  msgs.foldl (processMessage uuidParse parseNano parseRFC) s

/-- HTTP status of an ingest outcome (202 on acceptance). -/
def IngestResponse.status : IngestResponse → Nat
  | .errorResp s _ => s
  | .accepted _ => 202

/-- The `field` attribute of an ingest error response (`none` when the
response is a 202 or the attribute is omitted). -/
def IngestResponse.errorField : IngestResponse → Option String
  | .errorResp _ b => b.field
  | .accepted _ => none

/-- HTTP status of a metrics outcome (200 on success). -/
def MetricsResponse.status : MetricsResponse → Nat
  | .errorResp s => s
  | .ok _ => 200

/-- How the `metadata` field survives a marshal/unmarshal round trip: the
`omitempty` tag collapses an empty (non-nil) map to the nil map. -/
def normalizeMeta : Option (List (String × Json)) → Option (List (String × Json))
  | none => none
  | some [] => none
  | some md => some md

/-- Written from the spec's words, for comparison with the handler: the sum
of the per-event-type counts of minute `m` in the aggregate list. -/
def specMinuteSum (epms : List EventsPerMinute) (m : Int) : Int :=
  ((epms.filter (fun e => e.minute = m)).map EventsPerMinute.eventCount).sum

/-- First-occurrence lookup in the minute-totals association list. -/
def lookupTotal : List (Int × Int) → Int → Option Int
  | [], _ => none
  | (k, v) :: rest, m => if k = m then some v else lookupTotal rest m

/-!
Concrete instantiations used by witnesses and counterexamples.  The UUID
and time parameters are instantiated at `Nat` with constant codecs; the
library round-trip laws hold at the specific values used.
-/

/-- Concrete stand-in for `uuid.Parse` over `Nat` UUIDs. -/
def upAll : String → Option Nat := fun _ => some 0

/-- Concrete stand-in for `uuid.UUID.String`. -/
def utsAll : Nat → String := fun _ => "00000000-0000-0000-0000-000000000000"

/-- Concrete stand-in for RFC3339-nano parsing over `Nat` instants. -/
def pnAll : String → Option Nat := fun _ => some 0

/-- Concrete stand-in for RFC3339 parsing over `Nat` instants. -/
def prAll : String → Option Nat := fun _ => some 0

/-- Concrete stand-in for RFC3339-nano formatting. -/
def fnAll : Nat → String := fun _ => "2024-01-01T00:00:00Z"

/-- Event whose metadata is the empty non-nil map. -/
def egEventEmptyMeta : Event Nat Nat :=
  ⟨0, "match-1", "goal", 0, 1, "", some []⟩

/-- Event with one metadata entry. -/
def egEventMeta1 : Event Nat Nat :=
  ⟨0, "match-1", "goal", 0, 1, "p9", some [("k", Json.str "v")]⟩

/-- Request that passes every validation except `teamId`, which is 3. -/
def egReqTeam3 : EventRequest :=
  ⟨"3e2fdd24-0000-4000-8000-000000000000", "match-1", "goal",
   "2024-01-01T00:00:00Z", 3, "", none⟩

/-- Stored rows backing the C7 scenario (two goals in the same minute). -/
def egRowsC7 : List StoreRow :=
  [⟨"goal", 60, 60⟩, ⟨"goal", 70, 60⟩]

/-- The metrics value `GetMatchMetrics` computes for `egRowsC7` when its
own peak query scans `(60, 2)`. -/
def egMetricsC7 : MatchMetrics :=
  ⟨"match-1", 2, [("goal", 2)], 2, 0, 0, some 60, some 70, some ⟨60, 2⟩⟩

/-- A metrics body without a repository-set peak. -/
def egMetricsPlain : MatchMetrics :=
  ⟨"match-1", 4, [("goal", 2), ("pass", 2)], 2, 0, 0, some 60, some 120, none⟩

/-- Per-minute aggregates: minute 1 totals 3, minute 2 totals 1. -/
def egEpms5 : List EventsPerMinute :=
  [⟨1, "goal", 2⟩, ⟨1, "pass", 1⟩, ⟨2, "shot", 1⟩]

/-- Per-minute aggregates with two tied minutes (both total 2). -/
def egEpms6 : List EventsPerMinute :=
  [⟨1, "goal", 2⟩, ⟨2, "pass", 2⟩]

/-- A record whose value is not an Event (decode fails: not an object). -/
def egBadMsg : KMessage :=
  ⟨"match-1", Json.str "not-an-event", [], 0, 41⟩

/-- Escalation environment with both writers configured and succeeding. -/
def egEnvAll : WriterEnv :=
  ⟨true, true, true, true, "2024-01-01T00:00:05Z"⟩

/-- First event of the failed batch (its record carries `retry_count` 3). -/
def egEvent1 : Event Nat Nat := ⟨0, "match-1", "goal", 0, 1, "", none⟩

/-- Second event of the failed batch (no `retry_count` header). -/
def egEvent2 : Event Nat Nat := ⟨0, "match-2", "pass", 0, 2, "", none⟩

/-- Original record of `egEvent1`, already retried three times. -/
def egMsg1 : KMessage :=
  ⟨"match-1", egEvent1.toKafkaMessage utsAll fnAll,
   [⟨"retry_count", [3]⟩], 0, 7⟩

/-- Original record of `egEvent2`, never retried. -/
def egMsg2 : KMessage :=
  ⟨"match-2", egEvent2.toKafkaMessage utsAll fnAll, [], 0, 8⟩

/-!
Theorems.
-/

/-- C9 counterexample: the event `egEventEmptyMeta` carries an empty but
non-nil metadata map, yet the store adapter serializes its metadata to the
JSON string `\x7b\x7d` — so "serializes to `\x7b\x7d` only if the map is
nil" is false on the code (the repository's own test
`TestEvent_MetadataJSON_EmptyMap` asserts this behaviour). -/
theorem metadataJSON_nil_counterexample :
    egEventEmptyMeta.metadataJSON = "\x7b\x7d" ∧
      egEventEmptyMeta.metadata ≠ none := by
  refine ⟨?_, by simp [egEventEmptyMeta]⟩
  simp [egEventEmptyMeta, Event.metadataJSON, Json.encode, Json.encodeChars,
    Json.encodeCharsFields]

/-- C9 (amended): the store adapter serializes an event's metadata to the
JSON string `\x7b\x7d` if and only if the metadata map is nil or empty. -/
theorem metadataJSON_eq_empty_iff {U T : Type} (e : Event U T) :
    e.metadataJSON = "\x7b\x7d" ↔
      (e.metadata = none ∨ e.metadata = some []) := by
  rcases e with ⟨eid, mid, et, ts, tid, pid, md⟩
  match md with
  | none => simp [Event.metadataJSON]
  | some [] =>
    have hl : Json.encode (Json.obj []) = "\x7b\x7d" := by
      simp [Json.encode, Json.encodeChars, Json.encodeCharsFields]
    simp [Event.metadataJSON, hl]
  | some ((k, v) :: rest) =>
    simp only [Event.metadataJSON]
    constructor
    · intro h
      exfalso
      obtain ⟨cs, hcs⟩ :
          ∃ cs, Json.encodeCharsFields ((k, v) :: rest) = '"' :: cs := by
        cases rest <;>
          simp [Json.encodeCharsFields, encodeStringChars, List.cons_append]
      rw [Json.encode, Json.encodeChars, hcs] at h
      have hdd := congrArg String.data h
      simp at hdd
    · intro h
      rcases h with h | h <;> exact absurd h (by simp)

/-- Over a poll cycle, the batch grows by exactly the decodable records'
events, in fetch order: a malformed record never enters the batch. -/
theorem processMessages_batch {U T : Type} (up : String → Option U)
    (pn pr : String → Option T) (s : ConsumerState U T)
    (msgs : List KMessage) :
    (processMessages up pn pr s msgs).batch =
      s.batch ++
        msgs.filterMap (fun m => eventFromKafkaMessage up pn pr m.value) := by
  induction msgs generalizing s with
  | nil => simp [processMessages]
  | cons m rest ih =>
    have hstep : processMessages up pn pr s (m :: rest)
        = processMessages up pn pr (processMessage up pn pr s m) rest := rfl
    rw [hstep, ih]
    cases hdec : eventFromKafkaMessage up pn pr m.value with
    | none => simp [processMessage, hdec]
    | some e => simp [processMessage, hdec]

/-- C4: a fetched record whose value fails to decode as an Event bumps the
`parse_error` counter, has its offset committed, is not added to the batch,
and the loop proceeds to the next record; consequently a poll cycle's final
batch contains exactly the events of the decodable records, so a malformed
record never reaches a bulk insert. -/
theorem parse_failure_quarantine {U T : Type} (up : String → Option U)
    (pn pr : String → Option T) (s : ConsumerState U T) (msg : KMessage)
    (hfail : eventFromKafkaMessage up pn pr msg.value = none) :
    processMessage up pn pr s msg
      = { s with
            parseErrors := s.parseErrors + 1
            committed := s.committed ++ [msg] } ∧
    (processMessage up pn pr s msg).batch = s.batch ∧
    (∀ rest, processMessages up pn pr s (msg :: rest)
        = processMessages up pn pr (processMessage up pn pr s msg) rest) ∧
    (∀ msgs, (processMessages up pn pr (ConsumerState.init U T) msgs).batch
        = msgs.filterMap (fun m => eventFromKafkaMessage up pn pr m.value)) := by
  refine ⟨?_, ?_, fun rest => rfl,
    fun msgs => by simp [processMessages_batch, ConsumerState.init]⟩
  · simp [processMessage, hfail]
  · simp [processMessage, hfail]

/-- C4 witness: a concrete malformed record (value is a JSON string, not an
Event object) is quarantined: counter 1, offset committed, batch empty. -/
theorem parse_failure_quarantine_witness :
    eventFromKafkaMessage upAll pnAll prAll egBadMsg.value = none ∧
    processMessage upAll pnAll prAll (ConsumerState.init Nat Nat) egBadMsg
      = ⟨[], [], [egBadMsg], 1⟩ := by
  have h : eventFromKafkaMessage upAll pnAll prAll egBadMsg.value = none := rfl
  refine ⟨h, ?_⟩
  have hq := (parse_failure_quarantine upAll pnAll prAll
    (ConsumerState.init Nat Nat) egBadMsg h).1
  simpa [ConsumerState.init] using hq

/-- C7 counterexample: the repository's summary succeeds with total 2 and
its own peak query sets `peak_minute = (60, 2)`; the per-minute follow-up
then errors, and the handler responds 200 with that `peak_minute` still in
the body — contradicting "no peak_minute in the response". -/
theorem perminute_error_no_peak_counterexample :
    repoGetMatchMetrics "match-1" egRowsC7 [("goal", 2)] false false false
        (some (60, 2)) = .ok (some egMetricsC7) ∧
    getMatchMetrics "match-1" (.ok (some egMetricsC7)) (.error ()) []
      = MetricsResponse.ok egMetricsC7 ∧
    egMetricsC7.peakMinute = some ⟨60, 2⟩ :=
  ⟨rfl, rfl, rfl⟩

/-- C7 (amended): when the summary succeeds with non-zero total and the
per-minute query errors, the handler responds 200 with the summary metrics
exactly as the repository returned them — retaining any `peak_minute` the
repository's own peak query set, and attaching no handler-computed peak;
when the summary query errors, the response is 500. -/
theorem perminute_error_degrades :
    (∀ (matchId : String) (metrics : MatchMetrics)
        (order : List (Int × Int)), matchId ≠ "" →
      metrics.totalEvents ≠ 0 →
      getMatchMetrics matchId (.ok (some metrics)) (.error ()) order
        = MetricsResponse.ok metrics) ∧
    (∀ (matchId : String) (perMinute : Except Unit (List EventsPerMinute))
        (order : List (Int × Int)), matchId ≠ "" →
      getMatchMetrics matchId (.error ()) perMinute order
        = MetricsResponse.errorResp 500) := by
  constructor
  · intro matchId metrics order hm ht
    simp [getMatchMetrics, hm, ht]
  · intro matchId pm order hm
    simp [getMatchMetrics, hm]

/-- C7 witness: the amended behaviour at concrete inputs. -/
theorem perminute_error_degrades_witness :
    getMatchMetrics "match-1" (.ok (some egMetricsC7)) (.error ()) []
      = MetricsResponse.ok egMetricsC7 ∧
    getMatchMetrics "match-1" (.error ()) (.ok []) []
      = MetricsResponse.errorResp 500 :=
  ⟨perminute_error_degrades.1 "match-1" egMetricsC7 [] (by decide) (by decide),
   perminute_error_degrades.2 "match-1" (.ok []) [] (by decide)⟩

/-- C8: with a non-empty match id, the composed repository-plus-handler
read path responds 404 exactly when the summary scan succeeded and the
store holds zero rows for the match (equivalently, exactly when the
repository returned nil metrics); a match with rows in the store never
yields 404, whatever the later queries do. -/
theorem metrics_404_iff_zero_events (matchId : String) (rows : List StoreRow)
    (byType : List (String × Int)) (sErr btErr rErr : Bool)
    (peakScan : Option (Int × Int))
    (perMinute : Except Unit (List EventsPerMinute))
    (order : List (Int × Int)) (hm : matchId ≠ "") :
    (getMatchMetrics matchId
        (repoGetMatchMetrics matchId rows byType sErr btErr rErr peakScan)
        perMinute order = MetricsResponse.errorResp 404
      ↔ (sErr = false ∧ rows = [])) ∧
    (repoGetMatchMetrics matchId rows byType sErr btErr rErr peakScan
        = .ok none
      ↔ (sErr = false ∧ rows = [])) := by
  constructor
  · cases sErr with
    | false =>
      cases rows with
      | nil => simp [repoGetMatchMetrics, getMatchMetrics, hm]
      | cons r rs =>
        have hnz : ((rs.length : Int) + 1) ≠ 0 := by omega
        cases btErr <;> cases rErr <;> cases perMinute <;>
          simp [repoGetMatchMetrics, getMatchMetrics, hm, hnz]
    | true => simp [repoGetMatchMetrics, getMatchMetrics, hm]
  · cases sErr with
    | false =>
      cases rows with
      | nil => simp [repoGetMatchMetrics, hm]
      | cons r rs =>
        have hnz : ((rs.length : Int) + 1) ≠ 0 := by omega
        cases btErr <;> cases rErr <;> simp [repoGetMatchMetrics, hm, hnz]
    | true => simp [repoGetMatchMetrics, hm]

/-- C8 witness: an empty store yields 404, a store with rows does not. -/
theorem metrics_404_iff_zero_events_witness :
    (getMatchMetrics "match-1"
        (repoGetMatchMetrics "match-1" [] [] false false false none)
        (.ok []) [] = MetricsResponse.errorResp 404) ∧
    getMatchMetrics "match-1"
        (repoGetMatchMetrics "match-1" egRowsC7 [("goal", 2)] false false
          false none)
        (.ok []) [] ≠ MetricsResponse.errorResp 404 := by
  constructor
  · exact ((metrics_404_iff_zero_events "match-1" [] [] false false false
      none (.ok []) [] (by decide)).1).mpr ⟨rfl, rfl⟩
  · intro h
    have hz := ((metrics_404_iff_zero_events "match-1" egRowsC7 [("goal", 2)]
      false false false none (.ok []) [] (by decide)).1).mp h
    simp [egRowsC7] at hz

/-- Validation result versus the spec-ordered first-failing check: `ToEvent`
fails with exactly the field the spec's check order designates, and
succeeds exactly when every check passes. -/
theorem toEvent_vs_spec {U T : Type} (up : String → Option U)
    (pr : String → Option T) (r : EventRequest) :
    match r.toEvent up pr with
    | .error ve => specFirstFailingField up pr r = some ve.field
    | .ok _ => specFirstFailingField up pr r = none := by
  rcases hu : up r.eventId with _ | u <;>
    rcases ht : pr r.timestamp with _ | ts <;>
    by_cases hmid : r.matchId = "" <;>
    by_cases het : r.eventType ∈ validEventTypes <;>
    by_cases htid : r.teamId ≠ 1 ∧ r.teamId ≠ 2 <;>
    simp [EventRequest.toEvent, specFirstFailingField, hu, ht, hmid, het, htid]

/-- C2 (amended): for a body that decodes, the handler applies the checks in
the order UUID parse, matchId, eventType, timestamp, teamId, the first
failure short-circuits into a 400 whose `field` attribute names the
offending attribute (in particular teamId ∈ {0, 3, -1} yields
field "teamId"), and no 400 arises when all checks pass; for a body that
fails JSON decoding, the 400 response's `field` attribute carries the
decoder's error detail rather than an attribute name. -/
theorem ingest_validation_order {U T : Type} (up : String → Option U)
    (pr : String → Option T) (uts : U → String) :
    (∀ (r : EventRequest) (d : String) (ok : Bool) (f : String),
        specFirstFailingField up pr r = some f →
        (ingestEvent up pr uts (some r) d ok).status = 400 ∧
        (ingestEvent up pr uts (some r) d ok).errorField = some f) ∧
    (∀ (r : EventRequest) (d : String) (ok : Bool),
        specFirstFailingField up pr r = none →
        (ingestEvent up pr uts (some r) d ok).status ≠ 400) ∧
    (∀ (d : String) (ok : Bool), d ≠ "" →
        ingestEvent up pr uts none d ok
          = IngestResponse.errorResp 400
              ⟨"Bad Request", "invalid JSON body", some d⟩) ∧
    (∀ (r : EventRequest) (d : String) (ok : Bool),
        (up r.eventId).isSome → r.matchId ≠ "" →
        r.eventType ∈ validEventTypes → (pr r.timestamp).isSome →
        (r.teamId = 0 ∨ r.teamId = 3 ∨ r.teamId = -1) →
        (ingestEvent up pr uts (some r) d ok).status = 400 ∧
        (ingestEvent up pr uts (some r) d ok).errorField = some "teamId") := by
  have h1 : ∀ (r : EventRequest) (d : String) (ok : Bool) (f : String),
      specFirstFailingField up pr r = some f →
      (ingestEvent up pr uts (some r) d ok).status = 400 ∧
      (ingestEvent up pr uts (some r) d ok).errorField = some f := by
    intro r d ok f hf
    have hspec := toEvent_vs_spec up pr r
    cases he : r.toEvent up pr with
    | error ve =>
      rw [he] at hspec
      rw [hspec] at hf
      have hfv : f = ve.field := by
        injection hf with h
        exact h.symm
      subst hfv
      simp [ingestEvent, he, respondErrorWithField, IngestResponse.status,
        IngestResponse.errorField]
    | ok e =>
      rw [he] at hspec
      rw [hspec] at hf
      exact absurd hf (by simp)
  refine ⟨h1, ?_, ?_, ?_⟩
  · intro r d ok hnone
    have hspec := toEvent_vs_spec up pr r
    cases he : r.toEvent up pr with
    | error ve =>
      rw [he] at hspec
      rw [hspec] at hnone
      exact absurd hnone (by simp)
    | ok e =>
      cases ok <;>
        simp [ingestEvent, he, respondError, IngestResponse.status]
  · intro d ok hd
    simp [ingestEvent, respondError, hd]
    rfl
  · intro r d ok hup hmid het hts htid
    apply h1
    unfold specFirstFailingField
    have hup' : (up r.eventId).isNone = false := by
      rcases hres : up r.eventId with _ | u
      · rw [hres] at hup
        exact absurd hup (by simp)
      · simp
    have hts' : (pr r.timestamp).isNone = false := by
      rcases hres : pr r.timestamp with _ | ts
      · rw [hres] at hts
        exact absurd hts (by simp)
      · simp
    have hteam : r.teamId ≠ 1 ∧ r.teamId ≠ 2 := by
      rcases htid with h | h | h <;> rw [h] <;> exact ⟨by decide, by decide⟩
    simp [hup', hmid, het, hts', hteam]

/-- C2 counterexample: an empty request body fails JSON decoding with the
decoder error "EOF"; the handler responds 400 whose `field` attribute is
"EOF", which names no request attribute — so "the response's field
attribute names the offending field" fails for the JSON-parse check. -/
theorem ingest_json_field_counterexample :
    ingestEvent upAll prAll utsAll none "EOF" true
      = IngestResponse.errorResp 400
          ⟨"Bad Request", "invalid JSON body", some "EOF"⟩ ∧
    "EOF" ∉ ["eventId", "matchId", "eventType", "timestamp", "teamId"] :=
  ⟨rfl, by decide⟩

/-- C2 witness: a request valid except for `teamId = 3` yields 400 with
field "teamId"; an undecodable body yields 400 with the decoder detail. -/
theorem ingest_validation_order_witness :
    ((ingestEvent upAll prAll utsAll (some egReqTeam3) "" true).status = 400 ∧
     (ingestEvent upAll prAll utsAll (some egReqTeam3) "" true).errorField
       = some "teamId") ∧
    ingestEvent upAll prAll utsAll none "EOF" true
      = IngestResponse.errorResp 400
          ⟨"Bad Request", "invalid JSON body", some "EOF"⟩ :=
  ⟨(ingest_validation_order upAll prAll utsAll).2.2.2 egReqTeam3 "" true
      (by decide) (by decide) (by decide) (by decide) (by decide),
   (ingest_validation_order upAll prAll utsAll).2.2.1 "EOF" true (by decide)⟩

/-- Marshal/unmarshal round trip of the wire struct: every field survives
unchanged, except that `omitempty` collapses empty non-nil metadata to the
nil map. -/
theorem unmarshal_marshal (m : KafkaMessage) :
    KafkaMessage.unmarshal m.marshal
      = some { m with metadata := normalizeMeta m.metadata } := by
  rcases m with ⟨eid, mid, et, ts, tid, pid, md⟩
  match md with
  | none => rfl
  | some [] => rfl
  | some (kv :: md') => rfl

/-- C3 (amended): serializing an Event with `ToKafkaMessage` and
deserializing with `EventFromKafkaMessage` returns an Event equal in every
field — eventId, matchId, eventType, teamId, playerId, metadata entries,
and timestamp up to RFC3339-nano precision (the `uuid` and RFC3339-nano
library round-trip laws appear as the two hypotheses) — except that an
empty non-nil metadata map deserializes as nil (absent) metadata. -/
theorem kafka_roundtrip {U T : Type} (uts : U → String)
    (up : String → Option U) (fN : T → String) (pN pR : String → Option T)
    (e : Event U T) (hu : up (uts e.eventID) = some e.eventID)
    (ht : pN (fN e.timestamp) = some e.timestamp) :
    eventFromKafkaMessage up pN pR (e.toKafkaMessage uts fN)
      = some { e with metadata := normalizeMeta e.metadata } := by
  rcases e with ⟨eid, mid, et, ts, tid, pid, md⟩
  simp only [Event.toKafkaMessage] at *
  unfold eventFromKafkaMessage
  rw [unmarshal_marshal]
  simp [hu, ht]

/-- C3 counterexample: an Event whose metadata is the empty non-nil map
round-trips to an Event whose metadata is nil — the metadata fields are
not equal (Go's `reflect.DeepEqual` distinguishes a nil map from an empty
one), because `omitempty` drops the empty map during serialization. -/
theorem kafka_roundtrip_counterexample :
    eventFromKafkaMessage upAll pnAll prAll
        (egEventEmptyMeta.toKafkaMessage utsAll fnAll)
      = some { egEventEmptyMeta with metadata := none } ∧
    egEventEmptyMeta.metadata = some [] ∧
    some ([] : List (String × Json)) ≠ (none : Option (List (String × Json))) :=
  ⟨rfl, rfl, by simp⟩

/-- C3 witness: a concrete Event with one metadata entry round-trips to an
identical Event. -/
theorem kafka_roundtrip_witness :
    upAll (utsAll egEventMeta1.eventID) = some egEventMeta1.eventID ∧
    pnAll (fnAll egEventMeta1.timestamp) = some egEventMeta1.timestamp ∧
    eventFromKafkaMessage upAll pnAll prAll
        (egEventMeta1.toKafkaMessage utsAll fnAll) = some egEventMeta1 :=
  ⟨rfl, rfl, kafka_roundtrip utsAll upAll fnAll pnAll prAll egEventMeta1 rfl rfl⟩

/-- Unfolding of the spec-side per-minute sum over a cons cell. -/
theorem specMinuteSum_cons (e : EventsPerMinute) (rest : List EventsPerMinute)
    (m : Int) :
    specMinuteSum (e :: rest) m
      = (if e.minute = m then e.eventCount else 0) + specMinuteSum rest m := by
  by_cases h : e.minute = m <;> simp [specMinuteSum, h]

/-- Lookup after a `+=` update of the totals map. -/
theorem lookupTotal_bumpTotal (l : List (Int × Int)) (m c m' : Int) :
    lookupTotal (bumpTotal l m c) m'
      = if m' = m then some ((lookupTotal l m').getD 0 + c)
        else lookupTotal l m' := by
  induction l with
  | nil =>
    by_cases h : m' = m
    · simp [bumpTotal, lookupTotal, h]
    · simp [bumpTotal, lookupTotal, h, Ne.symm h]
  | cons kv rest ih =>
    obtain ⟨k, v⟩ := kv
    by_cases hk : k = m
    · subst hk
      by_cases h : m' = k
      · simp [bumpTotal, lookupTotal, h]
      · simp [bumpTotal, lookupTotal, h, Ne.symm h]
    · by_cases hkm' : k = m'
      · have hmm : m' ≠ m := fun hc => hk (hkm'.trans hc)
        simp [bumpTotal, lookupTotal, hk, hkm', hmm]
      · simp [bumpTotal, lookupTotal, hk, hkm', ih]

/-- Lookup in the totals map built by folding `bumpTotal` over the aggregate
list starting from an arbitrary accumulator. -/
theorem lookupTotal_foldl_bump (epms : List EventsPerMinute) :
    ∀ (acc : List (Int × Int)) (m : Int),
    lookupTotal
        (epms.foldl (fun a e => bumpTotal a e.minute e.eventCount) acc) m
      = if (lookupTotal acc m).isSome ∨ m ∈ epms.map EventsPerMinute.minute
        then some ((lookupTotal acc m).getD 0 + specMinuteSum epms m)
        else none := by
  induction epms with
  | nil =>
    intro acc m
    rcases h : lookupTotal acc m with _ | v <;> simp [h, specMinuteSum]
  | cons e rest ih =>
    intro acc m
    rw [List.foldl_cons, ih, lookupTotal_bumpTotal]
    by_cases hm : m = e.minute
    · subst hm
      simp [specMinuteSum_cons, add_assoc]
    · have he : e.minute ≠ m := fun hc => hm hc.symm
      simp [hm, he, specMinuteSum_cons]

/-- Lookup in the handler's `minuteTotals` map: defined minutes are exactly
the minutes of the aggregate list, and each is mapped to the spec-side sum
of its per-event-type counts. -/
theorem lookupTotal_minuteTotals (epms : List EventsPerMinute) (m : Int) :
    lookupTotal (minuteTotals epms) m
      = if m ∈ epms.map EventsPerMinute.minute
        then some (specMinuteSum epms m) else none := by
  have h := lookupTotal_foldl_bump epms [] m
  simpa [minuteTotals, lookupTotal] using h

/-- Key membership after a `+=` update of the totals map. -/
theorem bumpTotal_fst_mem (l : List (Int × Int)) (m c k : Int) :
    k ∈ (bumpTotal l m c).map Prod.fst ↔ k = m ∨ k ∈ l.map Prod.fst := by
  induction l with
  | nil => simp [bumpTotal]
  | cons kv rest ih =>
    obtain ⟨k', v⟩ := kv
    by_cases h : k' = m <;> simp [bumpTotal, h, ih] <;> tauto

/-- A `+=` update never duplicates a key of the totals map. -/
theorem bumpTotal_nodup (l : List (Int × Int)) (m c : Int)
    (h : (l.map Prod.fst).Nodup) :
    ((bumpTotal l m c).map Prod.fst).Nodup := by
  induction l with
  | nil => simp [bumpTotal]
  | cons kv rest ih =>
    obtain ⟨k', v⟩ := kv
    simp only [List.map_cons, List.nodup_cons] at h
    by_cases hk : k' = m
    · subst hk
      simpa [bumpTotal] using h
    · simp only [bumpTotal, if_neg hk, List.map_cons, List.nodup_cons]
      refine ⟨?_, ih h.2⟩
      intro hmem
      rcases (bumpTotal_fst_mem rest m c k').mp hmem with h' | h'
      · exact hk h'
      · exact h.1 h'

/-- The `minuteTotals` map has pairwise distinct minute keys. -/
theorem minuteTotals_nodup (epms : List EventsPerMinute) :
    ((minuteTotals epms).map Prod.fst).Nodup := by
  suffices h : ∀ acc : List (Int × Int), (acc.map Prod.fst).Nodup →
      ((epms.foldl (fun a e => bumpTotal a e.minute e.eventCount) acc).map
        Prod.fst).Nodup by
    exact h [] (by simp)
  induction epms with
  | nil =>
    intro acc hacc
    simpa using hacc
  | cons e rest ih =>
    intro acc hacc
    rw [List.foldl_cons]
    exact ih _ (bumpTotal_nodup _ _ _ hacc)

/-- In a map with distinct keys, membership determines the lookup. -/
theorem lookupTotal_eq_some_of_mem (l : List (Int × Int))
    (h : (l.map Prod.fst).Nodup) (m c : Int) (hm : (m, c) ∈ l) :
    lookupTotal l m = some c := by
  induction l with
  | nil => simp at hm
  | cons kv rest ih =>
    obtain ⟨k, v⟩ := kv
    simp only [List.map_cons, List.nodup_cons] at h
    rcases List.mem_cons.mp hm with heq | htail
    · have h1 : m = k := congrArg Prod.fst heq
      have h2 : c = v := congrArg Prod.snd heq
      subst h1
      subst h2
      simp [lookupTotal]
    · by_cases hk : k = m
      · exfalso
        subst hk
        exact h.1 (List.mem_map.mpr ⟨(k, c), htail, rfl⟩)
      · rw [lookupTotal, if_neg hk]
        exact ih h.2 htail

/-- A successful lookup exhibits membership in the totals map. -/
theorem mem_of_lookupTotal (l : List (Int × Int)) (m c : Int)
    (h : lookupTotal l m = some c) : (m, c) ∈ l := by
  induction l with
  | nil => simp [lookupTotal] at h
  | cons kv rest ih =>
    obtain ⟨k, v⟩ := kv
    by_cases hk : k = m
    · subst hk
      rw [lookupTotal, if_pos rfl] at h
      injection h with h
      subst h
      exact List.mem_cons_self _ _
    · rw [lookupTotal, if_neg hk] at h
      exact List.mem_cons_of_mem _ (ih h)

/-- The count component of the peak-search loop is the maximum of the
initial count and all entry counts. -/
theorem peakFold_snd (l : List (Int × Int)) :
    ∀ init : Int × Int,
    (l.foldl (fun acc mc => if mc.2 > acc.2 then mc else acc) init).2
      = l.foldl (fun a mc => max a mc.2) init.2 := by
  induction l with
  | nil => intro init; rfl
  | cons mc rest ih =>
    intro init
    rw [List.foldl_cons, List.foldl_cons, ih]
    congr 1
    by_cases h : mc.2 > init.2
    · simp only [if_pos h]
      exact (max_eq_right h.le).symm
    · simp only [if_neg h]
      exact (max_eq_left (not_lt.mp h)).symm

/-- Folding `max` over the entry counts is invariant under permutation of
the entries (so the peak count does not depend on map iteration order). -/
theorem foldl_max_perm {l1 l2 : List (Int × Int)} (h : l1.Perm l2) :
    ∀ i : Int, l1.foldl (fun a mc => max a mc.2) i
      = l2.foldl (fun a mc => max a mc.2) i := by
  induction h with
  | nil => intro i; rfl
  | cons x _ ih => intro i; simp only [List.foldl_cons]; exact ih _
  | swap x y l =>
    intro i
    simp only [List.foldl_cons]
    congr 1
    rw [max_assoc, max_comm y.2 x.2, ← max_assoc]
  | trans _ _ ih1 ih2 => intro i; rw [ih1, ih2]

/-- The peak-search loop returns its initial accumulator or one of the
entries. -/
theorem peakFold_mem (l : List (Int × Int)) :
    ∀ init : Int × Int,
    l.foldl (fun acc mc => if mc.2 > acc.2 then mc else acc) init = init ∨
    l.foldl (fun acc mc => if mc.2 > acc.2 then mc else acc) init ∈ l := by
  induction l with
  | nil => intro init; left; rfl
  | cons mc rest ih =>
    intro init
    rw [List.foldl_cons]
    rcases ih (if mc.2 > init.2 then mc else init) with h | h
    · rw [h]
      by_cases hc : mc.2 > init.2
      · right
        simp [hc]
      · left
        simp [hc]
    · right
      exact List.mem_cons_of_mem _ h

/-- Folding `max` over entry counts bounds the initial value and every
entry's count. -/
theorem le_foldl_max (l : List (Int × Int)) :
    ∀ i : Int, i ≤ l.foldl (fun a mc => max a mc.2) i ∧
      ∀ mc ∈ l, mc.2 ≤ l.foldl (fun a mc => max a mc.2) i := by
  induction l with
  | nil =>
    intro i
    exact ⟨le_refl i, by simp⟩
  | cons x rest ih =>
    intro i
    rw [List.foldl_cons]
    obtain ⟨h1, h2⟩ := ih (max i x.2)
    refine ⟨le_trans (le_max_left _ _) h1, ?_⟩
    intro mc hmc
    rcases List.mem_cons.mp hmc with heq | hmem
    · subst heq
      exact le_trans (le_max_right _ _) h1
    · exact h2 mc hmem

/-- The peak the handler computes over any iteration order of the
`minuteTotals` map attains the maximum summed count over the distinct
minutes of the aggregate list. -/
theorem computePeak_spec (epms : List EventsPerMinute)
    (order : List (Int × Int)) (p : PeakEngagement)
    (hperm : order.Perm (minuteTotals epms))
    (hp : computePeak order = some p) :
    p.minute ∈ epms.map EventsPerMinute.minute ∧
    specMinuteSum epms p.minute = p.eventCount ∧
    ∀ m ∈ epms.map EventsPerMinute.minute,
      specMinuteSum epms m ≤ p.eventCount := by
  unfold computePeak at hp
  have hfold : peakFold order
      = order.foldl (fun acc mc => if mc.2 > acc.2 then mc else acc)
          ((0 : Int), (0 : Int)) := rfl
  by_cases hpos : (peakFold order).2 > 0
  case neg =>
    rw [if_neg hpos] at hp
    exact absurd hp (by simp)
  rw [if_pos hpos] at hp
  have hpm : p = ⟨(peakFold order).1, (peakFold order).2⟩ := by
    injection hp with h
    exact h.symm
  subst hpm
  have hqmem : peakFold order ∈ order := by
    rcases peakFold_mem order ((0 : Int), (0 : Int)) with h0 | hmem
    · exfalso
      rw [← hfold] at h0
      rw [h0] at hpos
      exact absurd hpos (by norm_num)
    · rw [← hfold] at hmem
      exact hmem
  have hqtot : peakFold order ∈ minuteTotals epms := hperm.mem_iff.mp hqmem
  have hlook : lookupTotal (minuteTotals epms) (peakFold order).1
      = some (peakFold order).2 :=
    lookupTotal_eq_some_of_mem _ (minuteTotals_nodup epms) _ _ hqtot
  rw [lookupTotal_minuteTotals] at hlook
  have hq1mem : (peakFold order).1 ∈ epms.map EventsPerMinute.minute := by
    by_cases hmem : (peakFold order).1 ∈ epms.map EventsPerMinute.minute
    · exact hmem
    · rw [if_neg hmem] at hlook
      exact absurd hlook (by simp)
  rw [if_pos hq1mem] at hlook
  have hsum : specMinuteSum epms (peakFold order).1 = (peakFold order).2 := by
    injection hlook
  have hq2 : (peakFold order).2 = order.foldl (fun a mc => max a mc.2) 0 := by
    rw [hfold]
    exact peakFold_snd order ((0 : Int), (0 : Int))
  refine ⟨hq1mem, hsum, ?_⟩
  intro m hmmem
  have hlm : lookupTotal (minuteTotals epms) m
      = some (specMinuteSum epms m) := by
    rw [lookupTotal_minuteTotals, if_pos hmmem]
  have hmem2 : (m, specMinuteSum epms m) ∈ order :=
    hperm.mem_iff.mpr (mem_of_lookupTotal _ _ _ hlm)
  have hle := (le_foldl_max order 0).2 _ hmem2
  show specMinuteSum epms m ≤ (peakFold order).2
  rw [hq2]
  exact hle

/-- The peak count (and peak presence) does not depend on the iteration
order of the `minuteTotals` map. -/
theorem computePeak_count_congr (epms : List EventsPerMinute)
    (o1 o2 : List (Int × Int)) (h1 : o1.Perm (minuteTotals epms))
    (h2 : o2.Perm (minuteTotals epms)) :
    (computePeak o1).map PeakEngagement.eventCount
      = (computePeak o2).map PeakEngagement.eventCount := by
  have hp : o1.Perm o2 := h1.trans h2.symm
  have hsnd : (peakFold o1).2 = (peakFold o2).2 := by
    unfold peakFold
    rw [peakFold_snd o1 ((0 : Int), (0 : Int)),
      peakFold_snd o2 ((0 : Int), (0 : Int))]
    exact foldl_max_perm hp 0
  unfold computePeak
  by_cases hpos : (peakFold o1).2 > 0
  · have hpos2 : (peakFold o2).2 > 0 := hsnd ▸ hpos
    simp [hpos, hpos2, hsnd]
  · have hpos2 : ¬ (peakFold o2).2 > 0 := hsnd ▸ hpos
    simp [hpos, hpos2]

/-- C5: for a non-empty per-minute aggregate list, any `peak_minute` the
handler places in the response has `eventCount` equal to the maximum over
all distinct minutes of the summed per-event-type counts, and its minute
attains that maximum — for every iteration order of the handler's
`minuteTotals` map. -/
theorem peak_minute_correct (matchId : String) (metrics : MatchMetrics)
    (epms : List EventsPerMinute) (order : List (Int × Int))
    (body : MatchMetrics) (p : PeakEngagement)
    (hm : matchId ≠ "") (hne : epms ≠ [])
    (hperm : order.Perm (minuteTotals epms))
    (hresp : getMatchMetrics matchId (.ok (some metrics)) (.ok epms) order
        = MetricsResponse.ok body)
    (hpeak : body.peakMinute = some p) :
    p.minute ∈ epms.map EventsPerMinute.minute ∧
    specMinuteSum epms p.minute = p.eventCount ∧
    ∀ m ∈ epms.map EventsPerMinute.minute,
      specMinuteSum epms m ≤ p.eventCount := by
  have hlen : 0 < epms.length := List.length_pos.mpr hne
  by_cases htot : metrics.totalEvents = 0
  · simp [getMatchMetrics, hm, htot] at hresp
  · simp only [getMatchMetrics, if_neg hm, if_neg htot,
      MetricsResponse.ok.injEq] at hresp
    have hbp : body.peakMinute = computePeak order := by
      rw [← hresp]
      simp [hlen]
    rw [hbp] at hpeak
    exact computePeak_spec epms order p hperm hpeak

/-- C5 witness: with three aggregate rows (minute 1 summing to 3, minute 2
to 1) the placed peak is minute 1 with count 3, which attains the maximum. -/
theorem peak_minute_correct_witness :
    specMinuteSum egEpms5 1 = 3 ∧
    ∀ m ∈ egEpms5.map EventsPerMinute.minute, specMinuteSum egEpms5 m ≤ 3 := by
  have h := peak_minute_correct "match-1" egMetricsPlain egEpms5
    [(1, 3), (2, 1)] { egMetricsPlain with peakMinute := some ⟨1, 3⟩ }
    ⟨1, 3⟩ (by decide) (by decide) (by decide) rfl rfl
  exact ⟨h.2.1, h.2.2⟩

/-- C6 counterexample: with two minutes tied at summed count 2, two valid
iteration orders of the same `minuteTotals` map make the handler return
different peak minutes — two runs on the same aggregate list need not
produce the same peak minute, so ties are not broken deterministically. -/
theorem peak_determinism_counterexample :
    [((1 : Int), (2 : Int)), (2, 2)].Perm (minuteTotals egEpms6) ∧
    [((2 : Int), (2 : Int)), (1, 2)].Perm (minuteTotals egEpms6) ∧
    getMatchMetrics "match-1" (.ok (some egMetricsPlain)) (.ok egEpms6)
        [(1, 2), (2, 2)]
      ≠ getMatchMetrics "match-1" (.ok (some egMetricsPlain)) (.ok egEpms6)
        [(2, 2), (1, 2)] :=
  ⟨by decide, by decide, by decide⟩

/-- C6 (amended): across any two runs (any two iteration orders of the
`minuteTotals` map), the handler returns the same status and the same body
up to the peak minute: the peak's presence and its count are deterministic,
and any returned peak minute attains the maximum summed count — but the
choice among tied maximal minutes depends on the map iteration order. -/
theorem peak_determinism (matchId : String)
    (summary : Except Unit (Option MatchMetrics))
    (epms : List EventsPerMinute) (o1 o2 : List (Int × Int))
    (h1 : o1.Perm (minuteTotals epms)) (h2 : o2.Perm (minuteTotals epms)) :
    (getMatchMetrics matchId summary (.ok epms) o1).status
      = (getMatchMetrics matchId summary (.ok epms) o2).status ∧
    (∀ b1 b2,
        getMatchMetrics matchId summary (.ok epms) o1 = MetricsResponse.ok b1 →
        getMatchMetrics matchId summary (.ok epms) o2 = MetricsResponse.ok b2 →
        { b1 with peakMinute := none } = { b2 with peakMinute := none } ∧
        b1.peakMinute.map PeakEngagement.eventCount
          = b2.peakMinute.map PeakEngagement.eventCount ∧
        ∀ p, b1.peakMinute = some p →
          specMinuteSum epms p.minute = p.eventCount ∧
          ∀ m ∈ epms.map EventsPerMinute.minute,
            specMinuteSum epms m ≤ p.eventCount) := by
  by_cases hm : matchId = ""
  · refine ⟨by simp [getMatchMetrics, hm], ?_⟩
    intro b1 b2 hb1 hb2
    simp [getMatchMetrics, hm] at hb1
  · cases summary with
    | error e =>
      refine ⟨by simp [getMatchMetrics, hm], ?_⟩
      intro b1 b2 hb1 hb2
      simp [getMatchMetrics, hm] at hb1
    | ok mo =>
      cases mo with
      | none =>
        refine ⟨by simp [getMatchMetrics, hm], ?_⟩
        intro b1 b2 hb1 hb2
        simp [getMatchMetrics, hm] at hb1
      | some metrics =>
        by_cases htot : metrics.totalEvents = 0
        · refine ⟨by simp [getMatchMetrics, hm, htot], ?_⟩
          intro b1 b2 hb1 hb2
          simp [getMatchMetrics, hm, htot] at hb1
        · refine ⟨by simp [getMatchMetrics, hm, htot, MetricsResponse.status],
            ?_⟩
          intro b1 b2 hb1 hb2
          simp only [getMatchMetrics, if_neg hm, if_neg htot,
            MetricsResponse.ok.injEq] at hb1 hb2
          subst hb1
          subst hb2
          by_cases hlen : 0 < epms.length
          · refine ⟨rfl, ?_, ?_⟩
            · simp only [if_pos hlen]
              exact computePeak_count_congr epms o1 o2 h1 h2
            · intro p hp
              simp only [if_pos hlen] at hp
              have hs := computePeak_spec epms o1 p h1 hp
              exact ⟨hs.2.1, hs.2.2⟩
          · exact ⟨rfl, by simp [hlen], by simp [hlen]⟩

/-- C6 witness: the amended determinism at two concrete tied orders. -/
theorem peak_determinism_witness :
    (getMatchMetrics "match-1" (.ok (some egMetricsPlain)) (.ok egEpms6)
        [(1, 2), (2, 2)]).status
      = (getMatchMetrics "match-1" (.ok (some egMetricsPlain)) (.ok egEpms6)
        [(2, 2), (1, 2)]).status :=
  (peak_determinism "match-1" (.ok (some egMetricsPlain)) egEpms6
    [(1, 2), (2, 2)] [(2, 2), (1, 2)] (by decide) (by decide)).1

/-- The dead-letter path writes nothing to the retry topic and commits no
offsets (single event). -/
theorem sendSingleToDead_parts {U T : Type} (env : WriterEnv)
    (uts : U → String) (fN : T → String) (e : Event U T) :
    (sendSingleToDead env uts fN e).retryWritten = [] ∧
    (sendSingleToDead env uts fN e).committed = [] := by
  unfold sendSingleToDead
  split_ifs <;> simp [SendEffects.empty]

/-- The dead-letter path writes nothing to the retry topic and commits no
offsets (whole batch). -/
theorem sendToDead_parts {U T : Type} (env : WriterEnv) (uts : U → String)
    (fN : T → String) (events : List (Event U T)) :
    (sendToDead env uts fN events).retryWritten = [] ∧
    (sendToDead env uts fN events).committed = [] := by
  induction events with
  | nil => simp [sendToDead, SendEffects.empty]
  | cons e rest ih =>
    have hstep : sendToDead env uts fN (e :: rest)
        = (sendSingleToDead env uts fN e).append (sendToDead env uts fN rest) :=
      rfl
    rw [hstep]
    simp [SendEffects.append, (sendSingleToDead_parts env uts fN e).1,
      (sendSingleToDead_parts env uts fN e).2, ih.1, ih.2]

/-- The escalation loop itself writes nothing to the retry topic and commits
no offsets; those effects happen only after the loop. -/
theorem retryLoop_parts {U T : Type} (env : WriterEnv) (uts : U → String)
    (fN : T → String) (maxR : Nat) (msgs : List KMessage) :
    ∀ (events : List (Event U T)) (i : Nat),
    (retryLoop env uts fN maxR msgs i events).2.retryWritten = [] ∧
    (retryLoop env uts fN maxR msgs i events).2.committed = [] := by
  intro events
  induction events with
  | nil => intro i; simp [retryLoop, SendEffects.empty]
  | cons e rest ih =>
    intro i
    rcases hrl : retryLoop env uts fN maxR msgs (i + 1) rest with ⟨rms, eff⟩
    have h2 := ih (i + 1)
    rw [hrl] at h2
    by_cases hc : maxR < headerRetryCountAt msgs i + 1 <;>
      simp [retryLoop, hrl, hc, SendEffects.append,
        (sendSingleToDead_parts env uts fN e).1,
        (sendSingleToDead_parts env uts fN e).2] <;>
      exact h2

/-- Per-record behaviour of the escalation loop at relative index `j`: a
bumped count within `maxRetries` contributes the retry message with that
count, a count above it contributes the event's dead-letter message (when
the dead writer is configured and its write succeeds). -/
theorem retryLoop_mem {U T : Type} (env : WriterEnv) (uts : U → String)
    (fN : T → String) (maxR : Nat) (msgs : List KMessage) :
    ∀ (events : List (Event U T)) (i j : Nat) (e : Event U T),
    events[j]? = some e →
    (headerRetryCountAt msgs (i + j) + 1 ≤ maxR →
      retryMessage uts fN e (headerRetryCountAt msgs (i + j) + 1)
        ∈ (retryLoop env uts fN maxR msgs i events).1) ∧
    (maxR < headerRetryCountAt msgs (i + j) + 1 →
      env.deadWriterPresent = true → env.deadWriteOk = true →
      deadMessage uts fN env.now e
        ∈ (retryLoop env uts fN maxR msgs i events).2.deadWritten) := by
  intro events
  induction events with
  | nil =>
    intro i j e hj
    simp at hj
  | cons e0 rest ih =>
    intro i j e hj
    rcases hrl : retryLoop env uts fN maxR msgs (i + 1) rest with ⟨rms, eff⟩
    cases j with
    | zero =>
      simp only [List.getElem?_cons_zero, Option.some.injEq] at hj
      subst hj
      simp only [Nat.add_zero]
      constructor
      · intro hle
        have hc : ¬ maxR < headerRetryCountAt msgs i + 1 := not_lt.mpr hle
        simp [retryLoop, hrl, hc]
      · intro hgt hdp hdo
        simp [retryLoop, hrl, hgt, SendEffects.append, sendSingleToDead,
          hdp, hdo, SendEffects.empty]
    | succ j' =>
      have hj' : rest[j']? = some e := by simpa using hj
      have hidx : i + 1 + j' = i + (j' + 1) := by omega
      have hrec := ih (i + 1) j' e hj'
      rw [hidx, hrl] at hrec
      constructor
      · intro hle
        have hmem := hrec.1 hle
        by_cases hc : maxR < headerRetryCountAt msgs i + 1 <;>
          simp [retryLoop, hrl, hc]
        · exact hmem
        · exact Or.inr hmem
      · intro hgt hdp hdo
        have hmem := hrec.2 hgt hdp hdo
        by_cases hc : maxR < headerRetryCountAt msgs i + 1 <;>
          simp [retryLoop, hrl, hc, SendEffects.append]
        · exact Or.inr hmem
        · exact hmem

/-- The escalation loop produces no retry messages exactly when every
record's bumped retry count exceeds `maxRetries`. -/
theorem retryLoop_fst_nil_iff {U T : Type} (env : WriterEnv)
    (uts : U → String) (fN : T → String) (maxR : Nat) (msgs : List KMessage) :
    ∀ (events : List (Event U T)) (i : Nat),
    (retryLoop env uts fN maxR msgs i events).1 = [] ↔
      ∀ (j : Nat) (e : Event U T), events[j]? = some e →
        maxR < headerRetryCountAt msgs (i + j) + 1 := by
  intro events
  induction events with
  | nil =>
    intro i
    simp [retryLoop]
  | cons e0 rest ih =>
    intro i
    rcases hrl : retryLoop env uts fN maxR msgs (i + 1) rest with ⟨rms, eff⟩
    have hrec := ih (i + 1)
    rw [hrl] at hrec
    by_cases hc : maxR < headerRetryCountAt msgs i + 1
    · simp only [retryLoop, hrl, if_pos hc]
      constructor
      · intro hnil j e hj
        cases j with
        | zero =>
          simp only [List.getElem?_cons_zero, Option.some.injEq] at hj
          subst hj
          rw [Nat.add_zero]
          exact hc
        | succ j' =>
          have hj' : rest[j']? = some e := by simpa using hj
          have := hrec.mp hnil j' e hj'
          rw [show i + 1 + j' = i + (j' + 1) by omega] at this
          exact this
      · intro hall
        apply hrec.mpr
        intro j e hj
        rw [show i + 1 + j = i + (j + 1) by omega]
        exact hall (j + 1) e (by simpa using hj)
    · simp only [retryLoop, hrl, if_neg hc]
      constructor
      · intro hnil
        exact absurd hnil (by simp)
      · intro hall
        exfalso
        have := hall 0 e0 (by simp)
        rw [Nat.add_zero] at this
        exact hc this

/-- C1: when a failed batch is escalated with both writers configured and
their writes succeeding, then for the `j`-th record of the batch the
consumer reads the `retry_count` header (absent ⇒ 0) and increments it; a
bumped count within `max_retries` puts the event's retry record on the
retry topic carrying the bumped `retry_count` header, and a bumped count
above `max_retries` puts on the dead topic a dead-letter envelope with
fields event, failed_at, reason, event_id, match_id, event_type. -/
theorem retry_escalation {U T : Type} (env : WriterEnv) (uts : U → String)
    (fN : T → String) (maxR : Nat) (events : List (Event U T))
    (msgs : List KMessage) (j : Nat) (e : Event U T)
    (hrp : env.retryWriterPresent = true) (hwok : env.retryWriteOk = true)
    (hdp : env.deadWriterPresent = true) (hdok : env.deadWriteOk = true)
    (hmr : maxR ≤ 255) (hj : events[j]? = some e) :
    (headerRetryCountAt msgs j + 1 ≤ maxR →
      retryMessage uts fN e (headerRetryCountAt msgs j + 1)
        ∈ (sendToRetry env uts fN maxR events msgs).retryWritten ∧
      headerRetryCount
          (retryMessage uts fN e (headerRetryCountAt msgs j + 1)).headers
        = headerRetryCountAt msgs j + 1) ∧
    (maxR < headerRetryCountAt msgs j + 1 →
      deadMessage uts fN env.now e
        ∈ (sendToRetry env uts fN maxR events msgs).deadWritten ∧
      (deadMessage uts fN env.now e).value
        = Json.obj (deadEnvelopeFields uts fN env.now e) ∧
      jlookup (deadEnvelopeFields uts fN env.now e) "event"
        = some (e.toKafkaMessage uts fN) ∧
      jlookup (deadEnvelopeFields uts fN env.now e) "failed_at"
        = some (Json.str env.now) ∧
      jlookup (deadEnvelopeFields uts fN env.now e) "reason"
        = some (Json.str "max_retries_exceeded_or_permanent_failure") ∧
      jlookup (deadEnvelopeFields uts fN env.now e) "event_id"
        = some (Json.str (uts e.eventID)) ∧
      jlookup (deadEnvelopeFields uts fN env.now e) "match_id"
        = some (Json.str e.matchID) ∧
      jlookup (deadEnvelopeFields uts fN env.now e) "event_type"
        = some (Json.str e.eventType)) := by
  rcases hrl : retryLoop env uts fN maxR msgs 0 events with ⟨rms, eff⟩
  have hparts := retryLoop_parts env uts fN maxR msgs events 0
  rw [hrl] at hparts
  have heffr : eff.retryWritten = [] := hparts.1
  have hmem := retryLoop_mem env uts fN maxR msgs events 0 j e hj
  rw [hrl] at hmem
  simp only [Nat.zero_add] at hmem
  constructor
  · intro hle
    have hin : retryMessage uts fN e (headerRetryCountAt msgs j + 1) ∈ rms :=
      hmem.1 hle
    refine ⟨?_, ?_⟩
    · have hne : rms.isEmpty = false := by
        cases rms with
        | nil => simp at hin
        | cons a as => rfl
      simp only [sendToRetry, hrp, not_true, Bool.false_eq_true,
        if_false, hrl, hne, hwok, if_true, SendEffects.append,
        SendEffects.empty]
      simp [heffr]
      exact hin
    · have hcalc : headerRetryCount
          (retryMessage uts fN e (headerRetryCountAt msgs j + 1)).headers
          = (headerRetryCountAt msgs j + 1) % 256 := rfl
      rw [hcalc, Nat.mod_eq_of_lt (by omega)]
  · intro hgt
    have hin : deadMessage uts fN env.now e ∈ eff.deadWritten :=
      hmem.2 hgt hdp hdok
    refine ⟨?_, rfl, rfl, rfl, rfl, rfl, rfl, rfl⟩
    by_cases hne : rms.isEmpty = true
    · simp only [sendToRetry, hrp, not_true, Bool.false_eq_true, if_false,
        hrl, hne, if_true]
      exact hin
    · simp only [sendToRetry, hrp, not_true, Bool.false_eq_true, if_false,
        hrl, hne, hwok, if_true, SendEffects.append, SendEffects.empty]
      simp
      exact hin

/-- C1 witness: a two-record failed batch with retry counts 3 (exhausted)
and 0 (retryable) at `max_retries = 3`: the second event's retry record is
on the retry topic and the first event's dead envelope on the dead topic. -/
theorem retry_escalation_witness :
    retryMessage utsAll fnAll egEvent2 1
      ∈ (sendToRetry egEnvAll utsAll fnAll 3 [egEvent1, egEvent2]
          [egMsg1, egMsg2]).retryWritten ∧
    deadMessage utsAll fnAll egEnvAll.now egEvent1
      ∈ (sendToRetry egEnvAll utsAll fnAll 3 [egEvent1, egEvent2]
          [egMsg1, egMsg2]).deadWritten := by
  have h1 := retry_escalation egEnvAll utsAll fnAll 3 [egEvent1, egEvent2]
    [egMsg1, egMsg2] 1 egEvent2 rfl rfl rfl rfl (by decide) rfl
  have h0 := retry_escalation egEnvAll utsAll fnAll 3 [egEvent1, egEvent2]
    [egMsg1, egMsg2] 0 egEvent1 rfl rfl rfl rfl (by decide) rfl
  exact ⟨(h1.1 (by decide)).1, (h0.2 (by decide)).1⟩

/-- C10 counterexample: in a mixed batch (one record's bumped count exceeds
`max_retries` and is dead-lettered, the other is republished to retry), a
successful retry publish commits the offsets of ALL original records —
including the dead-lettered one — so "in every dead-letter path the
original records' offsets are not committed" is false on the code. -/
theorem dead_letter_commit_counterexample :
    (sendToRetry egEnvAll utsAll fnAll 3 [egEvent1, egEvent2]
        [egMsg1, egMsg2]).committed = [egMsg1, egMsg2] ∧
    (sendToRetry egEnvAll utsAll fnAll 3 [egEvent1, egEvent2]
        [egMsg1, egMsg2]).deadWritten
      = [deadMessage utsAll fnAll egEnvAll.now egEvent1] :=
  ⟨rfl, rfl⟩

/-- C10 (amended): offsets are committed only after a successful bulk
insert, after quarantining a parse-failing record, or after a successful
retry publish.  When the whole batch is dead-lettered — no retry writer,
retry publish failure, or every record's bumped count exceeding
`max_retries` (the loop then produces no retry messages) — no offsets are
committed and the records are redelivered; but a successful retry publish
of a mixed batch commits the offsets of ALL its original records,
including those dead-lettered for exceeding `max_retries`, so those
dead-lettered records are not redelivered. -/
theorem commit_discipline {U T : Type} (env : WriterEnv) (uts : U → String)
    (fN : T → String) (maxR : Nat) (up : String → Option U)
    (pn pr : String → Option T) :
    (∀ (events : List (Event U T)) (msgs : List KMessage), events ≠ [] →
      (flushWithContext env uts fN maxR true events msgs).committed = msgs) ∧
    (∀ (s : ConsumerState U T) (msg : KMessage),
      eventFromKafkaMessage up pn pr msg.value = none →
      (processMessage up pn pr s msg).committed = s.committed ++ [msg]) ∧
    (∀ (events : List (Event U T)) (msgs : List KMessage),
      (env.retryWriterPresent = true → env.retryWriteOk = true →
        (retryLoop env uts fN maxR msgs 0 events).1 ≠ [] →
        (sendToRetry env uts fN maxR events msgs).committed = msgs) ∧
      (env.retryWriterPresent = false ∨ env.retryWriteOk = false ∨
          (retryLoop env uts fN maxR msgs 0 events).1 = [] →
        (sendToRetry env uts fN maxR events msgs).committed = [])) ∧
    (∀ (events : List (Event U T)) (msgs : List KMessage),
      ((retryLoop env uts fN maxR msgs 0 events).1 = [] ↔
        ∀ (j : Nat) (e : Event U T), events[j]? = some e →
          maxR < headerRetryCountAt msgs j + 1)) ∧
    (∀ events : List (Event U T),
      (sendToDead env uts fN events).committed = []) := by
  refine ⟨?_, ?_, ?_, ?_, fun events => (sendToDead_parts env uts fN events).2⟩
  · intro events msgs hne
    have hemp : events.isEmpty = false := by
      cases events with
      | nil => exact absurd rfl hne
      | cons a as => rfl
    simp [flushWithContext, hemp, SendEffects.empty]
  · intro s msg hfail
    simp [processMessage, hfail]
  · intro events msgs
    rcases hrl : retryLoop env uts fN maxR msgs 0 events with ⟨rms, eff⟩
    have hparts := retryLoop_parts env uts fN maxR msgs events 0
    rw [hrl] at hparts
    have heffc : eff.committed = [] := hparts.2
    have hdc : (sendToDead env uts fN events).committed = [] :=
      (sendToDead_parts env uts fN events).2
    constructor
    · intro hrp hwk hnnil0
      have hnnil : rms ≠ [] := hnnil0
      have hne : rms.isEmpty = false := by
        cases rms with
        | nil => exact absurd rfl hnnil
        | cons a as => rfl
      simp only [sendToRetry, hrp, not_true, Bool.false_eq_true, if_false,
        hrl, hne, hwk, if_true, SendEffects.append, SendEffects.empty]
      simp [heffc]
    · intro hcase
      rcases hcase with hrp | hwk | hnil
      · simp only [sendToRetry, hrp]
        simp [hdc]
      · cases hrp : env.retryWriterPresent with
        | false =>
          simp only [sendToRetry, hrp]
          simp [hdc]
        | true =>
          cases hne : rms.isEmpty with
          | true =>
            simp only [sendToRetry, hrp, not_true, Bool.false_eq_true,
              if_false, hrl, hne, if_true]
            exact heffc
          | false =>
            simp only [sendToRetry, hrp, not_true, Bool.false_eq_true,
              if_false, hrl, hne, hwk, SendEffects.append]
            simp [heffc, hdc]
      · have hnil2 : rms = [] := hnil
        cases hrp : env.retryWriterPresent with
        | false =>
          simp only [sendToRetry, hrp]
          simp [hdc]
        | true =>
          have hne : rms.isEmpty = true := by
            rw [hnil2]
            rfl
          simp only [sendToRetry, hrp, not_true, Bool.false_eq_true,
            if_false, hrl, hne, if_true]
          exact heffc
  · intro events msgs
    have h := retryLoop_fst_nil_iff env uts fN maxR msgs events 0
    simpa using h

/-- C10 witness: the commit discipline at concrete inputs — a successful
insert commits the batch, the quarantined record's offset is committed,
a failed-batch escalation where every count is exhausted commits nothing,
and the dead-letter path commits nothing. -/
theorem commit_discipline_witness :
    (flushWithContext egEnvAll utsAll fnAll 3 true [egEvent1] [egMsg1]).committed
      = [egMsg1] ∧
    (processMessage upAll pnAll prAll (ConsumerState.init Nat Nat)
        egBadMsg).committed = [egBadMsg] ∧
    (sendToRetry egEnvAll utsAll fnAll 0 [egEvent1] [egMsg1]).committed
      = [] ∧
    (sendToDead egEnvAll utsAll fnAll [egEvent1, egEvent2]).committed = [] := by
  have h := commit_discipline (U := Nat) (T := Nat) egEnvAll utsAll fnAll 3
    upAll pnAll prAll
  have h0 := commit_discipline (U := Nat) (T := Nat) egEnvAll utsAll fnAll 0
    upAll pnAll prAll
  refine ⟨h.1 [egEvent1] [egMsg1] (by simp), ?_, ?_,
    h.2.2.2.2 [egEvent1, egEvent2]⟩
  · have hb := h.2.1 (ConsumerState.init Nat Nat) egBadMsg rfl
    simpa [ConsumerState.init] using hb
  · exact (h0.2.2.1 [egEvent1] [egMsg1]).2 (Or.inr (Or.inr rfl))

end Fanfinity
